import Mathlib

/-
  Verification of the Formation Layout & State-Synchronization Engine of the
  FLP_forBBK lineup-overlay application.

  The definitions below are a shallow embedding of the TypeScript source
  (src/src/App.tsx and src/src/components/ScoreDraggable.tsx).  JS numbers are
  modelled as rationals (for coordinates) or integers/naturals (for counts and
  scores); a JS number that may be NaN is modelled as an Option.  Each
  definition cites the source lines it embeds.
-/

namespace FLP

/-- A pitch position in percentage coordinates, as produced by calcPositions
and stored in the override maps (App.tsx Position objects of shape x, y). -/
structure Pos where
  x : ℚ
  y : ℚ
deriving DecidableEq, Repr

/-- Source App.tsx line 53: clamp01 clamps a percentage to the range 0..100. -/
def clamp01 (v : ℚ) : ℚ := max 0 (min 100 v)

/-- Source App.tsx lines 25-28: a formation is a name together with an ordered list of
per-line player counts, line 0 being the goalkeeper line. -/
structure Formation where
  name : String
  lines : List ℕ
deriving DecidableEq, Repr

/-- Source App.tsx line 85: baseX = ((lineCount - i) / (lineCount + 1)) * 100, the
pre-widening x of seat i within a line of lineCount seats (reversed order so
the first roster index of a line lands rightmost). -/
def baseX (lineCount i : ℕ) : ℚ :=
  (((lineCount : ℚ) - (i : ℚ)) / ((lineCount : ℚ) + 1)) * 100

/-- Source App.tsx line 86: x = 50 + (baseX - 50) * 1.2 widens the spacing by 20%
about the pitch centerline x = 50. -/
def seatX (lineCount i : ℕ) : ℚ := 50 + (baseX lineCount i - 50) * (12 / 10)

/-- Source App.tsx lines 83-88: the x coordinates emitted for one line, in roster
order i = 0, 1, ..., lineCount - 1. -/
def seatXs (lineCount : ℕ) : List ℚ := (List.range lineCount).map (seatX lineCount)

/-- Source App.tsx lines 69-81: the common y of a line.  Line index 0 (goalkeeper) is
pinned at y = 90; every other line index gets
y = bottomY - ((bottomY - topY) / (totalLines - 1)) * lineIndex with
topY = 10 and bottomY = 90.  (The rawY/computedY values computed on lines
62-65 of the source are dead: yForLine is overwritten in both branches.)
For totalLines = 1 the JS code divides by zero (Infinity); that degenerate
case is outside every claim, which all assume at least two lines. -/
def lineY (totalLines lineIndex : ℕ) : ℚ :=
  if lineIndex = 0 then 90
  else 90 - ((90 - 10) / ((totalLines : ℚ) - 1)) * (lineIndex : ℚ)

/-- Source App.tsx lines 57-92: the forEach over formation.lines, carrying the
running lineIndex.  Each line contributes (seatXs lineCount) seats at that
line y. -/
def calcPositionsAux (totalLines : ℕ) : ℕ → List ℕ → List Pos
  | _, [] => []
  | lineIndex, lineCount :: rest =>
      (seatXs lineCount).map (fun x => ⟨x, lineY totalLines lineIndex⟩)
        ++ calcPositionsAux totalLines (lineIndex + 1) rest

/-- Source App.tsx lines 57-92: calcPositions, the Layout Calculator. -/
def calcPositions (formation : Formation) : List Pos :=
  calcPositionsAux formation.lines.length 0 formation.lines

/-! ### Mode Transform (combined-vertical projection and the drag-time inverse) -/

/-- Source App.tsx lines 172-177 (broadcast) and 1206-1209 (render): the team A split
position projected into the top half of the combined-vertical pitch:
y maps to topStart + (y/100)*topSpan with topStart = 2, topSpan = 50, and
x maps to 50 + (x-50)*1.15. -/
def vertMapA (p : Pos) : Pos :=
  ⟨50 + (p.x - 50) * (115 / 100), 2 + (p.y / 100) * 50⟩

/-- Source App.tsx lines 200-206 (broadcast) and 1246-1250 (render): the team B split
position mirrored (100 - y) then projected into the bottom half:
y maps to bottomStart + ((100-y)/100)*bottomSpan with bottomStart = 48,
bottomSpan = 50, and x maps to 50 + (x-50)*1.15. -/
def vertMapB (p : Pos) : Pos :=
  ⟨50 + (p.x - 50) * (115 / 100), 48 + ((100 - p.y) / 100) * 50⟩

/-- Source App.tsx lines 1004-1006: in vertical mode the team-A pointer-move handler
stores x unchanged and y = clamp01((y/50)*100) (comment in source: map
0..50 to 0..100, top half).  This is the inverse mapping actually applied
before an override is stored. -/
def dragStoreA (p : Pos) : Pos := ⟨p.x, clamp01 ((p.y / 50) * 100)⟩

/-- Source App.tsx lines 1061-1063: in vertical mode the team-B pointer-move handler
stores x unchanged and y = clamp01(((100 - y)/50)*100) (comment in source:
map bottom half 50..100 to 0..100). -/
def dragStoreB (p : Pos) : Pos := ⟨p.x, clamp01 (((100 - p.y) / 50) * 100)⟩

/-! ### Override store

The override maps are JS objects keyed by seat index
(Record number Pos, App.tsx lines 338-339); modelled as association lists
with object-spread update semantics. -/

/-- Lookup overrides[i] (JS property access; absent key yields undefined). -/
def ovGet (o : List (ℕ × Pos)) (i : ℕ) : Option Pos :=
  (o.find? (fun e => e.1 == i)).map (fun e => e.2)

/-- The spread update of App.tsx lines 1006/1008/1063/1065, written
as prev spread with key dr.index set: replaces the entry when the key is
present, appends it otherwise. -/
def ovSet (o : List (ℕ × Pos)) (i : ℕ) (p : Pos) : List (ℕ × Pos) :=
  if o.any (fun e => e.1 == i) then
    o.map (fun e => if e.1 == i then (i, p) else e)
  else o ++ [(i, p)]

/-! ### Drag Controller -/

/-- Source App.tsx line 51: const MOVEMENT_THRESHOLD = 6 (px). -/
def MOVEMENT_THRESHOLD : ℚ := 6

/-- Source App.tsx line 1023/1080: the single-click selection callback is scheduled
after this many milliseconds. -/
def SINGLE_CLICK_DELAY_MS : ℕ := 250

/-- Source App.tsx lines 30-37: the per-gesture mutable drag record. -/
structure DragState where
  index : ℕ
  startX : ℚ
  startY : ℚ
  moved : Bool
  pointerOffsetX : ℚ
  pointerOffsetY : ℚ
deriving DecidableEq, Repr

/-- The bounding rectangle of the field element used by toPercent
(App.tsx line 969, getBoundingClientRect). -/
structure Rect where
  left : ℚ
  top : ℚ
  width : ℚ
  height : ℚ
deriving DecidableEq, Repr

/-- Source App.tsx lines 965-975: toPercent converts client pixels to field
percentages, clamped into 0..100 on both axes.  The element is assumed
present (the source returns null only when the ref is unset). -/
def toPercent (r : Rect) (clientX clientY : ℚ) : Pos :=
  ⟨clamp01 ((clientX - r.left) / r.width * 100),
   clamp01 ((clientY - r.top) / r.height * 100)⟩

/-- The observable state touched by the pointer handlers of one team: the drag
record (draggingRef), the override map of that team, whether a single-click
selection callback is currently scheduled (singleClickTimerRef) and for which
seat, whether a broadcast has been scheduled (broadcastTimerRef), and a count
of override-store writes (number of setOverrides calls). -/
structure ControllerState where
  dragging : Option DragState
  overrides : List (ℕ × Pos)
  clickScheduled : Option ℕ
  broadcastScheduled : Bool
  overrideWrites : ℕ
deriving DecidableEq, Repr

/-- A pointer event delivered to the seat handlers of one team: pointer-down over
seat index (with the client point and the pointer-to-card-center offset
recorded on lines 979-989), pointer-move at a client point, or pointer-up. -/
inductive PEvent where
  | down (index : ℕ) (clientX clientY offsetX offsetY : ℚ)
  | move (clientX clientY : ℚ)
  | up
deriving DecidableEq, Repr

/-- Source App.tsx lines 977-990: onPointerDown records the drag start. -/
def onPointerDown (s : ControllerState) (index : ℕ) (cx cy ox oy : ℚ) :
    ControllerState :=
  { s with dragging := some ⟨index, cx, cy, false, ox, oy⟩ }

/-- Source App.tsx lines 992-1010: onPointerMove.  When a drag is active it marks
moved once the displacement exceeds the threshold (Math.hypot(dx,dy) greater
than 6, equivalently squared displacement greater than 36), then
unconditionally writes an override for the dragged seat from the
offset-adjusted pointer percentage (through the vertical-mode inverse when
verticalMode is set, the team-A variant here). -/
def onPointerMove (verticalMode : Bool) (r : Rect) (s : ControllerState)
    (cx cy : ℚ) : ControllerState :=
  match s.dragging with
  | none => s
  | some dr =>
      let dx := cx - dr.startX
      let dy := cy - dr.startY
      let moved := if dx ^ 2 + dy ^ 2 > MOVEMENT_THRESHOLD ^ 2 then true else dr.moved
      let p := toPercent r (cx - dr.pointerOffsetX) (cy - dr.pointerOffsetY)
      let stored := if verticalMode then dragStoreA p else p
      { s with
        dragging := some { dr with moved := moved },
        overrides := ovSet s.overrides dr.index stored,
        overrideWrites := s.overrideWrites + 1 }

/-- Source App.tsx lines 1012-1032: onPointerUp.  Below threshold (moved false) it
schedules the single-click selection callback for the seat after 250 ms;
after a drag it schedules a debounced broadcast instead and no click. -/
def onPointerUp (s : ControllerState) : ControllerState :=
  match s.dragging with
  | none => s
  | some dr =>
      let s1 := { s with dragging := none }
      if dr.moved then { s1 with broadcastScheduled := true }
      else { s1 with clickScheduled := some dr.index }

/-- Dispatch one pointer event to the handlers above. -/
def stepEvent (verticalMode : Bool) (r : Rect) (s : ControllerState) :
    PEvent → ControllerState
  | .down i cx cy ox oy => onPointerDown s i cx cy ox oy
  | .move cx cy => onPointerMove verticalMode r s cx cy
  | .up => onPointerUp s

/-- Run a pointer-event sequence through the drag controller. -/
def runGesture (verticalMode : Bool) (r : Rect) (s : ControllerState)
    (es : List PEvent) : ControllerState :=
  es.foldl (stepEvent verticalMode r) s

/-! ### Players, session state, and the operations that replace it wholesale -/

/-- Source App.tsx lines 17-23: a roster player.  The optional yellowCard, redCard
and goals fields are modelled with their JS-falsy defaults (false, 0). -/
structure Player where
  number : String
  name : String
  yellowCard : Bool
  redCard : Bool
  goals : ℕ
deriving DecidableEq, Repr

/-- The per-session App state relevant to the engine (App.tsx lines 275-339):
formation, roster, uniform color, team identity and override map for each
team, both scores, and the display-mode flag.  Logos are opaque ids. -/
structure SessionState where
  formation : Formation
  players : List Player
  uniformColor : String
  teamNameA : String
  teamLogoA : Option String
  overrides : List (ℕ × Pos)
  formationB : Formation
  playersB : List Player
  uniformColorB : String
  teamNameB : String
  teamLogoB : Option String
  overridesB : List (ℕ × Pos)
  scoreA : ℤ
  scoreB : ℤ
  verticalMode : Bool
deriving DecidableEq, Repr

/-- Source App.tsx lines 698-720: handleSwapTeams exchanges every team-A field with
the corresponding team-B field, the override maps included. -/
def handleSwapTeams (s : SessionState) : SessionState :=
  { s with
    formation := s.formationB
    players := s.playersB
    uniformColor := s.uniformColorB
    teamNameA := s.teamNameB
    teamLogoA := s.teamLogoB
    overrides := s.overridesB
    formationB := s.formation
    playersB := s.players
    uniformColorB := s.uniformColor
    teamNameB := s.teamNameA
    teamLogoB := s.teamLogoA
    overridesB := s.overrides }

/-- Source App.tsx lines 626-631: the resized roster built on a formation change;
entry i keeps players[i].number / players[i].name when present and truthy,
else falls back to the defaults String(i+1) and a numbered placeholder name.
The rebuilt entries carry no card or goal fields. -/
def resizedPlayers (players : List Player) (newTotal : ℕ) : List Player :=
  (List.range newTotal).map (fun i =>
    { number :=
        match players.get? i with
        | some p => if p.number = "" then toString (i + 1) else p.number
        | none => toString (i + 1)
      name :=
        match players.get? i with
        | some p => if p.name = "" then ("선수 " ++ toString (i + 1)) else p.name
        | none => ("선수 " ++ toString (i + 1))
      yellowCard := false
      redCard := false
      goals := 0 })

/-- Source App.tsx lines 626-640: updatePlayersForFormation resizes the team-A
roster to the seat count of the new formation, installs the new formation, and
resets the manual drags (setOverrides of the empty object). -/
def updatePlayersForFormation (s : SessionState) (newFormation : Formation) :
    SessionState :=
  { s with
    players := resizedPlayers s.players newFormation.lines.sum
    formation := newFormation
    overrides := [] }

/-- Source App.tsx lines 642-656: the team-B counterpart of
updatePlayersForFormation. -/
def updatePlayersForFormationB (s : SessionState) (newFormation : Formation) :
    SessionState :=
  { s with
    playersB := resizedPlayers s.playersB newFormation.lines.sum
    formationB := newFormation
    overridesB := [] }

/-! ### Match-Feed Reconciler -/

/-- One entry of the fixture event list consumed by the reconciler
(ev.type, ev.detail, ev.player.id stringified as the source compares it, and
ev.player.name).  A missing name is the empty string (JS-falsy). -/
structure FeedEvent where
  typ : String
  detail : String
  playerId : String
  playerName : String
deriving DecidableEq, Repr

/-- One entry of a lineup startXI (p.player.id stringified, p.player.name
with empty string for missing, p.player.number). -/
structure RosterEntry where
  id : String
  name : String
  number : Option ℕ
deriving DecidableEq, Repr

/-- Source App.tsx lines 815-818: the goal count attributed to a roster player:
events of type Goal whose detail is not Missed Penalty and whose event player
matches by stringified id, or by exact name when the roster name is truthy. -/
def goalCount (events : List FeedEvent) (pId pName : String) : ℕ :=
  (events.filter (fun ev =>
    ev.typ == "Goal" && ev.detail != "Missed Penalty" &&
      (ev.playerId == pId || (pName != "" && ev.playerName == pName)))).length

/-- JS String.prototype.includes, used by the card matching below. -/
def strContains (hay needle : String) : Bool :=
  decide (needle.toList <:+: hay.toList)

/-- Source App.tsx lines 825-827: a card event of the given kind attributed to the
player (id match or exact-name match; the name side is not truthiness-guarded
here, unlike the goal count). -/
def hasCard (events : List FeedEvent) (kind : String) (pId pName : String) :
    Bool :=
  events.any (fun ev =>
    ev.typ == "Card" && strContains ev.detail kind &&
      (ev.playerId == pId || ev.playerName == pName))

/-- Source App.tsx lines 810-839: mapPlayersWithLog builds the incoming roster,
attributing goals and cards to each startXI entry; number and name fall back
to index-based defaults when missing. -/
def mapPlayersWithLog (events : List FeedEvent) (startXI : List RosterEntry) :
    List Player :=
  startXI.enum.map (fun e =>
    let idx := e.1
    let p := e.2
    { number := match p.number with
        | some n => toString n
        | none => toString (idx + 1)
      name := if p.name = "" then ("선수 " ++ toString (idx + 1)) else p.name
      yellowCard := hasCard events "Yellow Card" p.id p.name
      redCard := hasCard events "Red Card" p.id p.name
      goals := goalCount events p.id p.name })

/-- JS parseInt(s, 10) on the characters of one dash-separated chunk: skip
leading whitespace, take an optional sign, then the leading decimal digits;
none models NaN (no digits). -/
def jsParseInt (cs : List Char) : Option ℤ :=
  let rest0 := cs.dropWhile (fun c => c.isWhitespace)
  let signAndRest : ℤ × List Char :=
    match rest0 with
    | '-' :: r => (-1, r)
    | '+' :: r => (1, r)
    | r => (1, r)
  let ds := signAndRest.2.takeWhile (fun c => c.isDigit)
  if ds = [] then none
  else some (signAndRest.1 *
    (ds.foldl (fun acc c => acc * 10 + (c.toNat - '0'.toNat)) 0 : ℕ))

/-- Source App.tsx lines 764-771: parseFormation.  A falsy (missing/empty) string
returns the default lines 1,4,3,3; otherwise the string is split on the dash
and each chunk goes through parseInt, with the implicit goalkeeper line of 1
prefixed.  An entry of none models a NaN produced by parseInt. -/
def parseFormation (formationStr : String) : List (Option ℤ) :=
  if formationStr = "" then [some 1, some 4, some 3, some 3]
  else some 1 :: (formationStr.toList.splitOn '-').map jsParseInt

/-- The fields of a successfully fetched and parsed feed update that
loadMatchLineup installs (App.tsx lines 800-899): both lineups already mapped
through mapPlayersWithLog and parseFormation, team identities, the latest
score, and the fixture status. -/
structure FeedUpdate where
  homeFormation : Formation
  homePlayers : List Player
  homeName : String
  homeLogo : Option String
  awayFormation : Formation
  awayPlayers : List Player
  awayName : String
  awayLogo : Option String
  goalsHome : ℤ
  goalsAway : ℤ
  statusShort : String
deriving DecidableEq, Repr

/-- The arguments of the broadcast scheduled at the end of a successful load
(App.tsx lines 892-899): which override maps it resolves against and the
status it carries. -/
structure LoadBroadcast where
  overridesUsed : List (ℕ × Pos)
  overridesBUsed : List (ℕ × Pos)
  status : String
deriving DecidableEq, Repr

/-- Source App.tsx lines 870-899: the state updates of the success
path of loadMatchLineup.  Formation, roster, team identity and score are replaced for both teams
from the update; the override maps are cleared only when the load is
user-initiated (if not isAutoRefresh, setOverrides of the empty object) and
are left untouched on an auto-refresh tick.  The scheduled broadcast uses the
preserved maps on an auto-refresh tick and empty maps otherwise. -/
def loadMatchLineup (s : SessionState) (u : FeedUpdate) (isAutoRefresh : Bool) :
    SessionState × LoadBroadcast :=
  ({ s with
      formation := u.homeFormation
      players := u.homePlayers
      teamNameA := u.homeName
      teamLogoA := u.homeLogo
      overrides := if isAutoRefresh then s.overrides else []
      formationB := u.awayFormation
      playersB := u.awayPlayers
      teamNameB := u.awayName
      teamLogoB := u.awayLogo
      overridesB := if isAutoRefresh then s.overridesB else []
      scoreA := u.goalsHome
      scoreB := u.goalsAway },
   { overridesUsed := if isAutoRefresh then s.overrides else []
     overridesBUsed := if isAutoRefresh then s.overridesB else []
     status := u.statusShort })

/-! ### Effective-position resolution (rendering and broadcast) -/

/-- Source App.tsx lines 165-169 and 193-197 (broadcast) and lines 1203-1205,
1243-1245, 1308-1310, 1356-1358 (rendering): the seat position resolved
against the defaults list: defaultPos is positions[index], a missing default
yields null, and otherwise the override for the index is used when present
(overrides[index] double-question defaultPos). -/
def renderResolvedPos (ov : List (ℕ × Pos)) (defaults : List Pos) (index : ℕ) :
    Option Pos :=
  match defaults.get? index with
  | none => none
  | some d => some ((ovGet ov index).getD d)

/-- Stated from the words of the spec, for comparison with the source
resolution: effectivePosition(team, index) is the override when one exists
for the seat, else computePositions(formation)[index]. -/
def effectivePositionSpec (ov : List (ℕ × Pos)) (f : Formation) (index : ℕ) :
    Option Pos :=
  match ovGet ov index with
  | some p => some p
  | none => (calcPositions f).get? index

/-! ### ScoreDraggable -/

/-- Source ScoreDraggable.tsx line 15: clamp(n, lo, hi) = Math.max(lo, Math.min(hi, n)). -/
def clampJs (n lo hi : ℤ) : ℤ := max lo (min hi n)

/-- Source ScoreDraggable.tsx line 23: the ArrowUp key emits clamp(value - 1, min, max). -/
def scoreArrowUpValue (value mn mx : ℤ) : ℤ := clampJs (value - 1) mn mx

/-- Source ScoreDraggable.tsx line 24: the ArrowDown key emits clamp(value + 1, min, max). -/
def scoreArrowDownValue (value mn mx : ℤ) : ℤ := clampJs (value + 1) mn mx

/-- Source ScoreDraggable.tsx line 67: the minus button emits clamp(value - 1, min, max). -/
def scoreMinusValue (value mn mx : ℤ) : ℤ := clampJs (value - 1) mn mx

/-- Source ScoreDraggable.tsx line 69: the plus button emits clamp(value + 1, min, max). -/
def scorePlusValue (value mn mx : ℤ) : ℤ := clampJs (value + 1) mn mx

/-! ## Helper lemmas -/

lemma seatXs_length (c : ℕ) : (seatXs c).length = c := by
  simp [seatXs]

lemma calcPositionsAux_length (L : ℕ) (l : List ℕ) :
    ∀ k : ℕ, (calcPositionsAux L k l).length = l.sum := by
  induction l with
  | nil => intro k; simp [calcPositionsAux]
  | cons c rest ih => intro k; simp [calcPositionsAux, seatXs_length, ih]

lemma calcPositions_length (f : Formation) :
    (calcPositions f).length = f.lines.sum :=
  calcPositionsAux_length _ _ _

lemma lineY_zero (L : ℕ) : lineY L 0 = 90 := by
  simp [lineY]

lemma lineY_of_ne_zero (L i : ℕ) (hi : i ≠ 0) :
    lineY L i = 90 - (80 / ((L : ℚ) - 1)) * (i : ℚ) := by
  simp [lineY, hi]
  norm_num

lemma lineY_last (L : ℕ) (hL : 2 ≤ L) : lineY L (L - 1) = 10 := by
  have h1 : L - 1 ≠ 0 := by omega
  rw [lineY_of_ne_zero L (L - 1) h1]
  have hcast : ((L - 1 : ℕ) : ℚ) = (L : ℚ) - 1 := by
    have h2 : (1 : ℕ) ≤ L := by omega
    push_cast [Nat.cast_sub h2]
    ring
  rw [hcast]
  have hLq : (2 : ℚ) ≤ (L : ℚ) := by exact_mod_cast hL
  have hne : (L : ℚ) - 1 ≠ 0 := by intro h; linarith
  field_simp
  norm_num

lemma lineY_strictAnti (L i j : ℕ) (hL : 2 ≤ L) (hij : i < j) (hj : j < L) :
    lineY L j < lineY L i := by
  have hLq : (2 : ℚ) ≤ (L : ℚ) := by exact_mod_cast hL
  have hden : (0 : ℚ) < (L : ℚ) - 1 := by linarith
  have hc : (0 : ℚ) < 80 / ((L : ℚ) - 1) := div_pos (by norm_num) hden
  have hjne : j ≠ 0 := by omega
  rw [lineY_of_ne_zero L j hjne]
  rcases Nat.eq_zero_or_pos i with hi | hi
  · subst hi
    rw [lineY_zero]
    have hjq : (0 : ℚ) < (j : ℚ) := by exact_mod_cast Nat.pos_of_ne_zero hjne
    nlinarith
  · rw [lineY_of_ne_zero L i (by omega)]
    have hq : (i : ℚ) < (j : ℚ) := by exact_mod_cast hij
    nlinarith

lemma lineY_bounds (L li : ℕ) (hL : 2 ≤ L) (hli : li < L) :
    10 ≤ lineY L li ∧ lineY L li ≤ 90 := by
  rcases Nat.eq_zero_or_pos li with h0 | h0
  · subst h0
    rw [lineY_zero]
    norm_num
  · have hLq : (2 : ℚ) ≤ (L : ℚ) := by exact_mod_cast hL
    have hden : (0 : ℚ) < (L : ℚ) - 1 := by linarith
    have hc : (0 : ℚ) ≤ 80 / ((L : ℚ) - 1) := le_of_lt (div_pos (by norm_num) hden)
    rw [lineY_of_ne_zero L li (by omega)]
    constructor
    · have hle : (li : ℚ) ≤ (L : ℚ) - 1 := by
        have h2 : (li : ℚ) + 1 ≤ (L : ℚ) := by exact_mod_cast hli
        linarith
      have h3 : 80 / ((L : ℚ) - 1) * (li : ℚ)
          ≤ 80 / ((L : ℚ) - 1) * ((L : ℚ) - 1) :=
        mul_le_mul_of_nonneg_left hle hc
      have h4 : 80 / ((L : ℚ) - 1) * ((L : ℚ) - 1) = 80 := by
        field_simp
      linarith
    · have h5 : (0 : ℚ) ≤ (li : ℚ) := by positivity
      nlinarith

lemma mem_calcPositionsAux (L : ℕ) (l : List ℕ) :
    ∀ (k : ℕ) (p : Pos), p ∈ calcPositionsAux L k l →
      ∃ i, k ≤ i ∧ i < k + l.length ∧ p.y = lineY L i := by
  induction l with
  | nil =>
      intro k p hp
      simp [calcPositionsAux] at hp
  | cons c rest ih =>
      intro k p hp
      simp only [calcPositionsAux, List.mem_append, List.mem_map] at hp
      rcases hp with ⟨x, _, rfl⟩ | hp
      · exact ⟨k, le_refl k, by simp, rfl⟩
      · rcases ih (k + 1) p hp with ⟨i, h1, h2, h3⟩
        exact ⟨i, by omega, by simp only [List.length_cons]; omega, h3⟩

lemma mem_calcPositions (f : Formation) (p : Pos) (hp : p ∈ calcPositions f) :
    ∃ li, li < f.lines.length ∧ p.y = lineY f.lines.length li := by
  rcases mem_calcPositionsAux f.lines.length f.lines 0 p hp with ⟨i, _, h2, h3⟩
  exact ⟨i, by omega, h3⟩

/-- Processing a run of pointer-moves while a drag is active: the drag record
keeps its identity and start point, the moved flag becomes true exactly when
some move exceeds the threshold, the click and broadcast schedules are
untouched, and the override store is written once per move. -/
lemma runMoves_spec (vm : Bool) (r : Rect) (moves : List (ℚ × ℚ)) :
    ∀ (s : ControllerState) (dr : DragState), s.dragging = some dr →
      ∃ dr' : DragState,
        (runGesture vm r s (moves.map (fun m => PEvent.move m.1 m.2))).dragging
            = some dr'
        ∧ dr'.index = dr.index
        ∧ dr'.moved = (dr.moved || moves.any (fun m =>
            decide (MOVEMENT_THRESHOLD ^ 2
              < (m.1 - dr.startX) ^ 2 + (m.2 - dr.startY) ^ 2)))
        ∧ (runGesture vm r s
            (moves.map (fun m => PEvent.move m.1 m.2))).clickScheduled
            = s.clickScheduled
        ∧ (runGesture vm r s
            (moves.map (fun m => PEvent.move m.1 m.2))).broadcastScheduled
            = s.broadcastScheduled
        ∧ (runGesture vm r s
            (moves.map (fun m => PEvent.move m.1 m.2))).overrideWrites
            = s.overrideWrites + moves.length := by
  induction moves with
  | nil =>
      intro s dr h
      exact ⟨dr, h, rfl, by simp, rfl, rfl, by simp [runGesture]⟩
  | cons m ms ih =>
      intro s dr h
      have hstep : stepEvent vm r s (PEvent.move m.1 m.2)
          = { s with
              dragging := some { dr with
                moved := if (m.1 - dr.startX) ^ 2 + (m.2 - dr.startY) ^ 2
                    > MOVEMENT_THRESHOLD ^ 2 then true else dr.moved }
              overrides := ovSet s.overrides dr.index
                (if vm then
                  dragStoreA (toPercent r (m.1 - dr.pointerOffsetX)
                    (m.2 - dr.pointerOffsetY))
                 else toPercent r (m.1 - dr.pointerOffsetX)
                    (m.2 - dr.pointerOffsetY))
              overrideWrites := s.overrideWrites + 1 } := by
        simp [stepEvent, onPointerMove, h]
      have hrun : runGesture vm r s
          ((m :: ms).map (fun m => PEvent.move m.1 m.2))
          = runGesture vm r (stepEvent vm r s (PEvent.move m.1 m.2))
              (ms.map (fun m => PEvent.move m.1 m.2)) := rfl
      rcases ih (stepEvent vm r s (PEvent.move m.1 m.2))
          { dr with
            moved := if (m.1 - dr.startX) ^ 2 + (m.2 - dr.startY) ^ 2
                > MOVEMENT_THRESHOLD ^ 2 then true else dr.moved }
          (by rw [hstep]) with ⟨dr', h1, h2, h3, h4, h5, h6⟩
      refine ⟨dr', by rw [hrun]; exact h1, h2, ?_, ?_, ?_, ?_⟩
      · rw [h3]
        simp only [List.any_cons]
        by_cases hc : MOVEMENT_THRESHOLD ^ 2
            < (m.1 - dr.startX) ^ 2 + (m.2 - dr.startY) ^ 2
        · simp [hc, lt_iff_lt_of_le_iff_le, gt_iff_lt]
        · simp [hc, gt_iff_lt]
      · rw [hrun, h4, hstep]
      · rw [hrun, h5, hstep]
      · rw [hrun, h6, hstep]
        simp only [List.length_cons]
        omega

lemma seatX_strict (n a b : ℕ) (hab : a < b) (hb : b < n) :
    seatX n b < seatX n a := by
  have hn : (0 : ℚ) < (n : ℚ) + 1 := by positivity
  have h1 : (a : ℚ) < (b : ℚ) := by exact_mod_cast hab
  unfold seatX baseX
  have key : ((n : ℚ) - (b : ℚ)) / ((n : ℚ) + 1)
      < ((n : ℚ) - (a : ℚ)) / ((n : ℚ) + 1) :=
    (div_lt_div_iff_of_pos_right hn).mpr (by linarith)
  nlinarith [key]

/-! ## Claim theorems -/

/-- C1: for every formation whose lines list has at least two entries,
calcPositions returns exactly sum(lines) positions; the goalkeeper line
(line 0) is pinned at the baseline nearest its own goal (maximal y = 90), the
last line has the minimal y (10), and the common y of each line strictly
decreases as line index increases; every produced seat lies on the y of its
line, between 10 and 90; for the formation named 4-4-2 with lines 1,4,4,2 the
result has 11 positions with seat 0 at the maximal y (90) and seats 9 and 10
at the minimal y (10). -/
theorem C1_calcPositions_layout (f : Formation) (h : 2 ≤ f.lines.length) :
    (calcPositions f).length = f.lines.sum
    ∧ lineY f.lines.length 0 = 90
    ∧ lineY f.lines.length (f.lines.length - 1) = 10
    ∧ (∀ i j, i < j → j < f.lines.length →
        lineY f.lines.length j < lineY f.lines.length i)
    ∧ (∀ p ∈ calcPositions f,
        ∃ li, li < f.lines.length ∧ p.y = lineY f.lines.length li)
    ∧ (∀ p ∈ calcPositions f, 10 ≤ p.y ∧ p.y ≤ 90)
    ∧ (calcPositions ⟨"4-4-2", [1, 4, 4, 2]⟩).length = 11
    ∧ ((calcPositions ⟨"4-4-2", [1, 4, 4, 2]⟩).get? 0).map Pos.y = some 90
    ∧ ((calcPositions ⟨"4-4-2", [1, 4, 4, 2]⟩).get? 9).map Pos.y = some 10
    ∧ ((calcPositions ⟨"4-4-2", [1, 4, 4, 2]⟩).get? 10).map Pos.y = some 10
    ∧ (∀ p ∈ calcPositions ⟨"4-4-2", [1, 4, 4, 2]⟩, 10 ≤ p.y ∧ p.y ≤ 90) := by
  refine ⟨calcPositions_length f, lineY_zero _, lineY_last _ h,
    fun i j hij hj => lineY_strictAnti _ i j h hij hj,
    fun p hp => mem_calcPositions f p hp,
    fun p hp => ?_, ?_, ?_, ?_, ?_, ?_⟩
  · rcases mem_calcPositions f p hp with ⟨li, hli, hy⟩
    rw [hy]
    exact ⟨(lineY_bounds _ li h hli).1, (lineY_bounds _ li h hli).2⟩
  · norm_num [calcPositions, calcPositionsAux, seatXs, List.range_succ]
  · norm_num [calcPositions, calcPositionsAux, seatXs, seatX, baseX, lineY,
      List.range_succ]
  · norm_num [calcPositions, calcPositionsAux, seatXs, seatX, baseX, lineY,
      List.range_succ]
  · norm_num [calcPositions, calcPositionsAux, seatXs, seatX, baseX, lineY,
      List.range_succ]
  · norm_num [calcPositions, calcPositionsAux, seatXs, seatX, baseX, lineY,
      List.range_succ]

/-- Witness for C1: the 4-4-2 formation has at least two lines, and the
theorem applied to it gives the seat count 11. -/
theorem C1_calcPositions_layout_witness :
    2 ≤ (Formation.mk "4-4-2" [1, 4, 4, 2]).lines.length
    ∧ (calcPositions ⟨"4-4-2", [1, 4, 4, 2]⟩).length
        = (Formation.mk "4-4-2" [1, 4, 4, 2]).lines.sum :=
  ⟨by norm_num,
   (C1_calcPositions_layout ⟨"4-4-2", [1, 4, 4, 2]⟩ (by norm_num)).1⟩

/-- C6: within a line of n seats the x coordinates produced by calcPositions
(the seatX values the calculator emits for that line) are symmetric about the
centerline (the k-th and (n-1-k)-th seats sum to 100), evenly spaced with
constant gap 120/(n+1), widened by the 20 percent multiplier about the
center, and strictly decreasing in roster index k within the line, so roster
index 0 of each line receives the largest x; and calcPositions emits exactly
the seatXs values as the x coordinates of a line. -/
theorem C6_line_x_geometry (n k : ℕ) (hk : k < n) :
    seatX n k + seatX n (n - 1 - k) = 100
    ∧ (k + 1 < n → seatX n k - seatX n (k + 1) = 120 / ((n : ℚ) + 1))
    ∧ seatX n k - 50 = (12 / 10) * (baseX n k - 50)
    ∧ (∀ j, k < j → j < n → seatX n j < seatX n k)
    ∧ (k ≠ 0 → seatX n k < seatX n 0)
    ∧ (∀ (nm : String) (m : ℕ),
        (calcPositions ⟨nm, [m]⟩).map Pos.x = seatXs m) := by
  have hn : (0 : ℚ) < (n : ℚ) + 1 := by positivity
  have hne : ((n : ℚ) + 1) ≠ 0 := ne_of_gt hn
  refine ⟨?_, ?_, ?_, ?_, ?_, ?_⟩
  · have hcast : ((n - 1 - k : ℕ) : ℚ) = (n : ℚ) - 1 - (k : ℚ) := by
      have h1 : k + 1 ≤ n := hk
      push_cast [Nat.cast_sub (by omega : 1 + k ≤ n)]
      have h2 : n - 1 - k = n - (1 + k) := by omega
      rw [h2]
      push_cast [Nat.cast_sub (by omega : 1 + k ≤ n)]
      ring
    unfold seatX baseX
    rw [hcast]
    field_simp
    ring
  · intro hk1
    unfold seatX baseX
    push_cast
    field_simp
    ring
  · unfold seatX
    ring
  · intro j hkj hj
    exact seatX_strict n k j hkj hj
  · intro hk0
    exact seatX_strict n 0 k (Nat.pos_of_ne_zero hk0) hk
  · intro nm m
    simp [calcPositions, calcPositionsAux, List.map_map, Function.comp_def]

/-- Witness for C6: in the four-seat line the pair k = 1 and n-1-k = 2 sums
to 100. -/
theorem C6_line_x_geometry_witness :
    (1 < 4 ∧ seatX 4 1 + seatX 4 (4 - 1 - 1) = 100) :=
  ⟨by norm_num, (C6_line_x_geometry 4 1 (by norm_num)).1⟩

/-- C2 fails on the code: composing the combined-vertical forward transform
with the inverse the drag handlers actually apply does not reproduce the
split-space position.  The handlers divide y by the half-span only, never
subtracting the topStart/bottomStart offset, and leave x untouched, so the
widening by 1.15 is not undone either: the split position (50, 0) comes back
as (50, 4) for both teams (y off by 4, far beyond the 1e-6 tolerance), and
(30, 60) comes back as (27, 64). -/
theorem C2_vertical_roundtrip_fails :
    dragStoreA (vertMapA ⟨50, 0⟩) = ⟨50, 4⟩
    ∧ dragStoreB (vertMapB ⟨50, 0⟩) = ⟨50, 4⟩
    ∧ dragStoreA (vertMapA ⟨30, 60⟩) = ⟨27, 64⟩
    ∧ dragStoreB (vertMapB ⟨30, 60⟩) = ⟨27, 64⟩
    ∧ ¬ |(dragStoreA (vertMapA ⟨50, 0⟩)).y - 0| ≤ 1 / 1000000 := by
  refine ⟨?_, ?_, ?_, ?_, ?_⟩ <;>
    norm_num [dragStoreA, dragStoreB, vertMapA, vertMapB, clamp01,
      Pos.mk.injEq, min_def, max_def, abs]

/-- C4: a successful feed update processed as an auto-refresh tick leaves
both override maps exactly unchanged (both in the session and in the
scheduled broadcast) while replacing roster, score and status; the same
update processed as a user-initiated load clears both override maps. -/
theorem C4_merge_policies (s : SessionState) (u : FeedUpdate)
    (h : s.overrides ≠ [] ∨ s.overridesB ≠ []) :
    ((loadMatchLineup s u true).1.overrides = s.overrides
      ∧ (loadMatchLineup s u true).1.overridesB = s.overridesB
      ∧ (loadMatchLineup s u true).2.overridesUsed = s.overrides
      ∧ (loadMatchLineup s u true).2.overridesBUsed = s.overridesB
      ∧ (loadMatchLineup s u true).1.players = u.homePlayers
      ∧ (loadMatchLineup s u true).1.playersB = u.awayPlayers
      ∧ (loadMatchLineup s u true).1.scoreA = u.goalsHome
      ∧ (loadMatchLineup s u true).1.scoreB = u.goalsAway
      ∧ (loadMatchLineup s u true).2.status = u.statusShort)
    ∧ ((loadMatchLineup s u false).1.overrides = []
      ∧ (loadMatchLineup s u false).1.overridesB = []
      ∧ (loadMatchLineup s u false).1.players = u.homePlayers
      ∧ (loadMatchLineup s u false).1.playersB = u.awayPlayers
      ∧ (loadMatchLineup s u false).1.scoreA = u.goalsHome
      ∧ (loadMatchLineup s u false).1.scoreB = u.goalsAway) := by
  simp [loadMatchLineup]

/-- Witness for C4: a concrete session with one override on team A, run
through the theorem. -/
theorem C4_merge_policies_witness :
    ((⟨⟨"4-3-3", [1, 4, 3, 3]⟩, [], "", "", none, [(0, ⟨12, 34⟩)],
        ⟨"4-3-3", [1, 4, 3, 3]⟩, [], "", "", none, [], 0, 0,
        false⟩ : SessionState).overrides ≠ []
      ∨ (⟨⟨"4-3-3", [1, 4, 3, 3]⟩, [], "", "", none, [(0, ⟨12, 34⟩)],
        ⟨"4-3-3", [1, 4, 3, 3]⟩, [], "", "", none, [], 0, 0,
        false⟩ : SessionState).overridesB ≠ []) ∧
    (loadMatchLineup
      ⟨⟨"4-3-3", [1, 4, 3, 3]⟩, [], "", "", none, [(0, ⟨12, 34⟩)],
        ⟨"4-3-3", [1, 4, 3, 3]⟩, [], "", "", none, [], 0, 0, false⟩
      ⟨⟨"4-4-2", [1, 4, 4, 2]⟩, [], "H", none, ⟨"4-4-2", [1, 4, 4, 2]⟩, [],
        "A", none, 1, 0, "2H"⟩ true).1.overrides = [(0, ⟨12, 34⟩)] :=
  ⟨Or.inl (by simp),
   (C4_merge_policies
      ⟨⟨"4-3-3", [1, 4, 3, 3]⟩, [], "", "", none, [(0, ⟨12, 34⟩)],
        ⟨"4-3-3", [1, 4, 3, 3]⟩, [], "", "", none, [], 0, 0, false⟩
      ⟨⟨"4-4-2", [1, 4, 4, 2]⟩, [], "H", none, ⟨"4-4-2", [1, 4, 4, 2]⟩, [],
        "A", none, 1, 0, "2H"⟩
      (Or.inl (by simp))).1.1⟩

/-- C5: for every seat index within the seat count of the current formation,
the position resolved for rendering and for the broadcast payload is the
stored override when one exists and calcPositions(formation)[index]
otherwise; this coincides with the effectivePosition resolution rule stated
by the spec. -/
theorem C5_effective_position (ov : List (ℕ × Pos)) (f : Formation) (i : ℕ)
    (h : i < f.lines.sum) :
    renderResolvedPos ov (calcPositions f) i = effectivePositionSpec ov f i
    ∧ (∀ d, (calcPositions f)[i]? = some d →
        renderResolvedPos ov (calcPositions f) i
          = some ((ovGet ov i).getD d)) := by
  have hlen : i < (calcPositions f).length := by
    rw [calcPositions_length]
    exact h
  obtain ⟨d, hd⟩ : ∃ d, (calcPositions f)[i]? = some d :=
    ⟨_, List.getElem?_eq_getElem hlen⟩
  constructor
  · cases hov : ovGet ov i <;>
      simp [renderResolvedPos, effectivePositionSpec, hd, hov]
  · intro d' hd'
    simp [renderResolvedPos, hd']

/-- Witness for C5: seat 0 of the default 4-3-3 formation with an override
present resolves to the override. -/
theorem C5_effective_position_witness :
    (0 < (Formation.mk "4-3-3" [1, 4, 3, 3]).lines.sum)
    ∧ renderResolvedPos [(0, ⟨7, 8⟩)]
        (calcPositions ⟨"4-3-3", [1, 4, 3, 3]⟩) 0
      = effectivePositionSpec [(0, ⟨7, 8⟩)] ⟨"4-3-3", [1, 4, 3, 3]⟩ 0 :=
  ⟨by norm_num,
   (C5_effective_position [(0, ⟨7, 8⟩)] ⟨"4-3-3", [1, 4, 3, 3]⟩ 0
      (by norm_num)).1⟩

/-- C7 fails on the code: handleSwapTeams does not destroy the pre-existing
override entries, it exchanges the two maps.  In a session whose team-A map
holds an entry for seat 0 and whose team-B map is empty, the entry survives
the swap on the team-B side. -/
theorem C7_swap_keeps_override :
    ovGet (handleSwapTeams
      ⟨⟨"4-3-3", [1, 4, 3, 3]⟩, [], "", "", none, [(0, ⟨11, 22⟩)],
        ⟨"4-3-3", [1, 4, 3, 3]⟩, [], "", "", none, [], 0, 0,
        false⟩).overridesB 0 = some ⟨11, 22⟩ := rfl

/-- C7 amended: a formation change destroys the override entries of that team (the
map is reset to empty, the map of the other team untouched), and a user-initiated
feed load clears both maps; a team swap destroys nothing, it exchanges the
two maps wholesale, so every pre-existing entry survives attached to the
opposite team. -/
theorem C7_override_lifecycle (s : SessionState) (nf : Formation)
    (u : FeedUpdate) :
    (updatePlayersForFormation s nf).overrides = []
    ∧ (updatePlayersForFormation s nf).overridesB = s.overridesB
    ∧ (updatePlayersForFormationB s nf).overridesB = []
    ∧ (updatePlayersForFormationB s nf).overrides = s.overrides
    ∧ (handleSwapTeams s).overrides = s.overridesB
    ∧ (handleSwapTeams s).overridesB = s.overrides
    ∧ (loadMatchLineup s u false).1.overrides = []
    ∧ (loadMatchLineup s u false).1.overridesB = [] := by
  simp [updatePlayersForFormation, updatePlayersForFormationB, handleSwapTeams,
    loadMatchLineup]

/-- C8: the reconciler sets the goal count of each incoming roster player to the
number of events of type Goal whose detail is not Missed Penalty and whose
event player matches by stringified identifier or by exact (truthy) name; a
goal event matching player id 987 yields goals 1, an additional Missed
Penalty goal event for the same player does not increase the count, and a
name-only match also counts. -/
theorem C8_goal_attribution (events : List FeedEvent) (xi : List RosterEntry)
    (k : ℕ) (hk : k < xi.length) :
    ((mapPlayersWithLog events xi).get? k).map Player.goals
      = some (goalCount events (xi.get ⟨k, hk⟩).id (xi.get ⟨k, hk⟩).name)
    ∧ (∀ pId pName,
        goalCount events pId pName
          = (events.filter (fun ev =>
              ev.typ == "Goal" && ev.detail != "Missed Penalty" &&
                (ev.playerId == pId
                  || (pName != "" && ev.playerName == pName)))).length)
    ∧ goalCount [⟨"Goal", "Normal Goal", "987", "Kim"⟩] "987" "Kim" = 1
    ∧ goalCount [⟨"Goal", "Normal Goal", "987", "Kim"⟩,
        ⟨"Goal", "Missed Penalty", "987", "Kim"⟩] "987" "Kim" = 1
    ∧ goalCount [⟨"Goal", "Normal Goal", "0", "Kim"⟩] "987" "Kim" = 1 := by
  refine ⟨?_, fun pId pName => rfl, rfl, rfl, rfl⟩
  simp only [mapPlayersWithLog, List.get?_eq_getElem?, List.getElem?_map,
    List.getElem?_enum, Option.map_map]
  simp [List.getElem?_eq_getElem hk]

/-- Witness for C8: a one-player roster for id 987 named Kim with one
matching goal event, evaluated at seat 0. -/
theorem C8_goal_attribution_witness :
    0 < ([⟨"987", "Kim", some 9⟩] : List RosterEntry).length
    ∧ ((mapPlayersWithLog [⟨"Goal", "Normal Goal", "987", "Kim"⟩]
          [⟨"987", "Kim", some 9⟩]).get? 0).map Player.goals
        = some (goalCount [⟨"Goal", "Normal Goal", "987", "Kim"⟩]
            "987" "Kim") :=
  ⟨by norm_num,
   (C8_goal_attribution [⟨"Goal", "Normal Goal", "987", "Kim"⟩]
      [⟨"987", "Kim", some 9⟩] 0 (by norm_num)).1⟩

/-- C9 fails on the code: parseFormation falls back to the default lines
1,4,3,3 only for a missing (empty) formation string; an unparseable string
such as abc is split and parsed into NaN entries (modelled as none) with the
goalkeeper 1 prefixed, not replaced by the default. -/
theorem C9_unparseable_no_fallback :
    parseFormation "abc" = [some 1, none]
    ∧ parseFormation "abc" ≠ [some 1, some 4, some 3, some 3] := by
  constructor <;> decide

/-- C9 amended: parseFormation splits a feed formation string on the dash
into integers and prefixes the implicit goalkeeper line of 1, so 4-2-3-1
yields 1,4,2,3,1; the default lines 1,4,3,3 are returned only for a missing
(empty) string, while an unparseable chunk yields a NaN entry in place. -/
theorem C9_parseFormation_behaviour (s : String) :
    parseFormation "" = [some 1, some 4, some 3, some 3]
    ∧ (s ≠ "" → parseFormation s
        = some 1 :: (s.toList.splitOn '-').map jsParseInt)
    ∧ parseFormation "4-2-3-1" = [some 1, some 4, some 2, some 3, some 1]
    ∧ parseFormation "4-3-3" = [some 1, some 4, some 3, some 3] := by
  refine ⟨rfl, fun h => by simp [parseFormation, h], ?_, ?_⟩ <;> decide

/-- Witness for C9 amended: applied at the 4-2-3-1 formation string. -/
theorem C9_parseFormation_behaviour_witness :
    ("4-2-3-1" : String) ≠ ""
    ∧ parseFormation "4-2-3-1"
        = some 1 :: ("4-2-3-1".toList.splitOn '-').map jsParseInt :=
  ⟨by decide, (C9_parseFormation_behaviour "4-2-3-1").2.1 (by decide)⟩

/-- C10: every score value the ScoreDraggable control passes to its onChange
callback, from the arrow-key handler or the plus/minus buttons, equals
clamp(value plus-or-minus 1, 0, 9) at the default bounds used by the app, so
every emitted score is an integer between 0 and 9 even when the current value
lies outside that range. -/
theorem C10_score_control_bounds (v : ℤ) :
    scoreArrowUpValue v 0 9 = clampJs (v - 1) 0 9
    ∧ scoreArrowDownValue v 0 9 = clampJs (v + 1) 0 9
    ∧ scoreMinusValue v 0 9 = clampJs (v - 1) 0 9
    ∧ scorePlusValue v 0 9 = clampJs (v + 1) 0 9
    ∧ (0 ≤ scoreArrowUpValue v 0 9 ∧ scoreArrowUpValue v 0 9 ≤ 9)
    ∧ (0 ≤ scoreArrowDownValue v 0 9 ∧ scoreArrowDownValue v 0 9 ≤ 9)
    ∧ (0 ≤ scoreMinusValue v 0 9 ∧ scoreMinusValue v 0 9 ≤ 9)
    ∧ (0 ≤ scorePlusValue v 0 9 ∧ scorePlusValue v 0 9 ≤ 9) := by
  unfold scoreArrowUpValue scoreArrowDownValue scoreMinusValue scorePlusValue
    clampJs
  refine ⟨rfl, rfl, rfl, rfl, ?_, ?_, ?_, ?_⟩ <;> constructor <;> omega

/-- C3 fails on the code: a pointer gesture whose displacement stays below
the 6 px threshold still mutates the Override Store.  With the field at
0,0,100,100 and no pointer offset, a down at the client point 10,10 followed
by one move to 12,10 (displacement 2 px) and an up leaves an override written
for the seat (one setOverrides call, entry 12,10 for seat 0) even though the
single-click callback is also scheduled, because onPointerMove writes the
store on every move and the threshold only selects click versus broadcast at
pointer-up. -/
theorem C3_subthreshold_still_mutates :
    ((12 : ℚ) - 10) ^ 2 + ((10 : ℚ) - 10) ^ 2 ≤ MOVEMENT_THRESHOLD ^ 2
    ∧ runGesture false ⟨0, 0, 100, 100⟩ ⟨none, [], none, false, 0⟩
        [PEvent.down 0 10 10 0 0, PEvent.move 12 10, PEvent.up]
      = ⟨none, [(0, ⟨12, 10⟩)], some 0, false, 1⟩ := by
  constructor
  · norm_num [MOVEMENT_THRESHOLD]
  · norm_num [runGesture, stepEvent, onPointerDown, onPointerMove,
      onPointerUp, toPercent, clamp01, ovSet, MOVEMENT_THRESHOLD,
      min_def, max_def]

/-- C3 amended: for a down-moves-up gesture starting with no scheduled click
and no scheduled broadcast, the Override Store is written exactly once per
pointer-move regardless of displacement; when every move stays within the
6 px threshold (squared displacement at most 36) the gesture additionally
schedules the 250 ms single-click callback for the seat and no broadcast,
and when some move exceeds the threshold no click is scheduled, a broadcast
is scheduled, and at least one override mutation has occurred. -/
theorem C3_drag_threshold (vm : Bool) (r : Rect) (o0 : List (ℕ × Pos))
    (i : ℕ) (sx sy ox oy : ℚ) (moves : List (ℚ × ℚ))
    (final : ControllerState)
    (hfinal : final = runGesture vm r ⟨none, o0, none, false, 0⟩
        (PEvent.down i sx sy ox oy ::
          (moves.map (fun m => PEvent.move m.1 m.2) ++ [PEvent.up]))) :
    final.overrideWrites = moves.length
    ∧ ((∀ m ∈ moves,
          (m.1 - sx) ^ 2 + (m.2 - sy) ^ 2 ≤ MOVEMENT_THRESHOLD ^ 2) →
        final.clickScheduled = some i ∧ final.broadcastScheduled = false)
    ∧ ((∃ m ∈ moves,
          MOVEMENT_THRESHOLD ^ 2 < (m.1 - sx) ^ 2 + (m.2 - sy) ^ 2) →
        final.clickScheduled = none ∧ final.broadcastScheduled = true
          ∧ 1 ≤ final.overrideWrites) := by
  subst hfinal
  have hcons : runGesture vm r ⟨none, o0, none, false, 0⟩
      (PEvent.down i sx sy ox oy ::
        (moves.map (fun m => PEvent.move m.1 m.2) ++ [PEvent.up]))
      = runGesture vm r
          ⟨some ⟨i, sx, sy, false, ox, oy⟩, o0, none, false, 0⟩
          (moves.map (fun m => PEvent.move m.1 m.2) ++ [PEvent.up]) := rfl
  rcases runMoves_spec vm r moves
      ⟨some ⟨i, sx, sy, false, ox, oy⟩, o0, none, false, 0⟩
      ⟨i, sx, sy, false, ox, oy⟩ rfl with ⟨dr', h1, h2, h3, h4, h5, h6⟩
  have hsplit : runGesture vm r
      ⟨some ⟨i, sx, sy, false, ox, oy⟩, o0, none, false, 0⟩
      (moves.map (fun m => PEvent.move m.1 m.2) ++ [PEvent.up])
      = onPointerUp (runGesture vm r
          ⟨some ⟨i, sx, sy, false, ox, oy⟩, o0, none, false, 0⟩
          (moves.map (fun m => PEvent.move m.1 m.2))) := by
    simp [runGesture, List.foldl_append, stepEvent]
  rw [hcons, hsplit]
  simp only [onPointerUp, h1]
  by_cases hany : moves.any (fun m =>
      decide (MOVEMENT_THRESHOLD ^ 2
        < (m.1 - sx) ^ 2 + (m.2 - sy) ^ 2)) = true
  · have hmoved : dr'.moved = true := by
      rw [h3]
      simp [hany]
    rw [hmoved]
    simp only [if_true]
    refine ⟨by simp [h6], fun hall => ?_, fun _ => ?_⟩
    · exfalso
      rcases List.any_eq_true.mp hany with ⟨m, hm, hdm⟩
      exact absurd (hall m hm) (by simpa using hdm)
    · refine ⟨by simp [h4], by simp, ?_⟩
      rcases List.any_eq_true.mp hany with ⟨m, hm, _⟩
      have hlen : 1 ≤ moves.length :=
        List.length_pos.mpr (List.ne_nil_of_mem hm)
      rw [h6]
      simpa using hlen
  · have hmoved : dr'.moved = false := by
      rw [h3]
      simpa using hany
    rw [hmoved]
    simp only [Bool.false_eq_true, if_false]
    refine ⟨by simp [h6], fun _ => ⟨by simp [h2], by simp [h5]⟩,
      fun hex => ?_⟩
    · exfalso
      rcases hex with ⟨m, hm, hdm⟩
      exact hany (List.any_eq_true.mpr ⟨m, hm, by simpa using hdm⟩)

/-- Witness for C3 amended: the single sub-threshold move of the
counterexample gesture schedules the click for seat 0. -/
theorem C3_drag_threshold_witness :
    ((12 : ℚ) - 10) ^ 2 + ((10 : ℚ) - 10) ^ 2 ≤ MOVEMENT_THRESHOLD ^ 2
    ∧ (runGesture false ⟨0, 0, 100, 100⟩ ⟨none, [], none, false, 0⟩
        (PEvent.down 0 10 10 0 0 ::
          ([((12 : ℚ), (10 : ℚ))].map (fun m => PEvent.move m.1 m.2)
            ++ [PEvent.up]))).clickScheduled = some 0 := by
  constructor
  · norm_num [MOVEMENT_THRESHOLD]
  · exact ((C3_drag_threshold false ⟨0, 0, 100, 100⟩ [] 0 10 10 0 0
      [(12, 10)] _ rfl).2.1 (by norm_num [MOVEMENT_THRESHOLD])).1

end FLP

